import Mathlib

/-! # MQTT relay (`main.cpp`): throttle, command dispatch, keep-alive, startup

A shallow embedding of `src/main.cpp`.  The program is a single-threaded
event loop; every callback of the source becomes a function on an explicit
device state.  What the source obtains from its collaborators (the clock's
progress while it sleeps or works, the sensor readings, the statuses the
transport returns) is passed in as an explicit environment record.

Conventions

* `clock` is the number of milliseconds since boot.  `Kernel::get_ms_count()`
  returns a `uint64_t`, so a read yields `clock % 2 ^ 64`.
* `system_reset()` does not return: it sets `halted`, and the remainder of the
  calling function is skipped; the event loop (`step`) runs no callback on a
  halted device.
* every externally visible action is appended to `trace`, oldest first.
* console output (`printf`) is not part of the model.
-/

namespace MqttRelay

/-! ## Machine integers -/

/-- Two to the power 64: the modulus of `uint64_t` arithmetic. -/
def U64 : Nat := 2 ^ 64

/-- Subtraction of two `uint64_t` values (wraps modulo `2 ^ 64`). -/
def subU64 (a b : Nat) : Nat := (a % U64 + (U64 - b % U64)) % U64

/-- Conversion of an integer to `int32_t` (two's complement). -/
def toInt32 (x : Int) : Int := (x + 2 ^ 31) % 2 ^ 32 - 2 ^ 31

/-- Conversion of an integer to `int8_t` (two's complement), as performed by
`return rc;` in a function whose return type is `int8_t`. -/
def toInt8 (x : Int) : Int := (x + 128) % 256 - 128

/-! ## Bytes and C strings -/

/-- One octet of a payload. -/
abbrev Byte := Fin 256

/-- The bytes of an ASCII string literal, without the terminating NUL. -/
def ascii (s : String) : List Byte := s.toList.map (fun c => Fin.ofNat c.toNat)

/-- C `strcmp` on two character buffers.  A buffer is read up to its first NUL
byte; the end of the list stands for a NUL as well.  The result is the
difference of the first pair of bytes that differ (as `unsigned char`), and
zero when the two C strings are equal. -/
def strcmp : List Byte → List Byte → Int
  | [], [] => 0
  | [], b :: _ => - (b.val : Int)
  | a :: _, [] => (a.val : Int)
  | a :: as, b :: bs =>
    if a = b then (if a = 0 then 0 else strcmp as bs)
    else (a.val : Int) - (b.val : Int)

/-- The C string stored in a buffer: the bytes before the first NUL. -/
def cString (buf : List Byte) : List Byte := buf.takeWhile (fun b => b ≠ 0)

/-! ## Device state and actions -/

/-- Externally visible actions of the program, in the order they are issued. -/
inductive Action
  /-- The assignment `led = v`. -/
  | ledWrite (v : Nat)
  /-- A call of `ThisThread::sleep_for(ms)`. -/
  | sleepFor (ms : Nat)
  /-- A call of `client->yield(timeout)` and the status it returned. -/
  | transportYield (timeout : Nat) (status : Int)
  /-- A call of `client->publish(topic, message)`: topic, payload text
  (the first `payloadlen` characters of the buffer), `payloadlen`, QoS,
  clock at the call, clock at the return, and the status returned. -/
  | transportPublish (topic : String) (payload : List Char) (payloadlen : Nat)
      (qos : Nat) (tCall tRet : Nat) (status : Int)
  /-- A call of `main_queue.cancel(id)`. -/
  | queueCancel (id : Int)
  /-- A call of `main_queue.break_dispatch()`. -/
  | breakDispatch
  /-- A call of `system_reset()`. -/
  | systemReset
  deriving DecidableEq, Repr

/-- The global state of the program. -/
structure Device where
  /-- Milliseconds since boot (ideal, unbounded). -/
  clock : Nat
  /-- The global `uint64_t lastMessagePublish`. -/
  lastMessagePublish : Nat
  /-- The value of the binary output `led`. -/
  led : Nat
  /-- The global `nsapi_size_or_error_t rc` (a 32-bit signed integer). -/
  rc : Int
  /-- The global `id_yield`. -/
  id_yield : Int
  /-- Set once `system_reset()` has been invoked. -/
  halted : Bool
  /-- The actions issued so far, oldest first. -/
  trace : List Action
  deriving DecidableEq, Repr

/-- The state right after the static initialisers ran, at clock value `t0`. -/
def Device.boot (t0 : Nat) : Device :=
  { clock := t0, lastMessagePublish := 0, led := 0, rc := 0, id_yield := 0,
    halted := false, trace := [] }

/-- A running device, not halted, with the given clock and timestamp, the
output off and no action issued yet. -/
def Device.running (clock last : Nat) : Device :=
  { clock := clock, lastMessagePublish := last, led := 0, rc := 0, id_yield := 1,
    halted := false, trace := [] }

/-- The value of `Kernel::get_ms_count()`. -/
def Device.get_ms_count (s : Device) : Nat := s.clock % U64

/-- The call `ThisThread::sleep_for(ms)`: the clock advances by `ms` plus a
non-negative overshoot chosen by the scheduler. -/
def Device.sleep_for (s : Device) (ms overshoot : Nat) : Device :=
  { s with clock := s.clock + ms + overshoot,
           trace := s.trace ++ [Action.sleepFor ms] }

/-- Time spent computing (`work` milliseconds pass). -/
def Device.elapse (s : Device) (work : Nat) : Device :=
  { s with clock := s.clock + work }

/-- Append one action to the trace. -/
def Device.emit (s : Device) (a : Action) : Device :=
  { s with trace := s.trace ++ [a] }

/-- The assignment `led = v` to the binary output. -/
def Device.writeLed (s : Device) (v : Nat) : Device :=
  { s with led := v, trace := s.trace ++ [Action.ledWrite v] }

/-- The call `system_reset()`. -/
def Device.system_reset (s : Device) : Device :=
  { s with halted := true, trace := s.trace ++ [Action.systemReset] }

/-- The assignment `lastMessagePublish = Kernel::get_ms_count();`, reached
`work` milliseconds after the preceding step. -/
def Device.stamp (s : Device) (work : Nat) : Device :=
  { s.elapse work with lastMessagePublish := (s.elapse work).get_ms_count }

/-- The throttle gate that opens `messageArrived`, `publish` and
`publishTemperatureHumidity` (lines 72-77, 131-136, 163-168):

    uint64_t currentTime = Kernel::get_ms_count();
    if (currentTime - lastMessagePublish < 1000)
        ThisThread::sleep_for(1200 - (currentTime - lastMessagePublish));
-/
def throttleGate (s : Device) (overshoot : Nat) : Device :=
  let currentTime := s.get_ms_count
  if subU64 currentTime s.lastMessagePublish < 1000 then
    s.sleep_for (subU64 1200 (subU64 currentTime s.lastMessagePublish)) overshoot
  else s

/-! ## `messageArrived` -/

/-- What the environment decides during one call of `messageArrived`. -/
structure ArrivalEnv where
  /-- Overshoot of the throttle sleep, if the gate sleeps. -/
  overshoot : Nat
  /-- Time spent in the handler before the final clock read. -/
  work : Nat
  deriving DecidableEq, Repr

/-- The callback `messageArrived(md)` for a message whose payload is the
byte sequence `payload` (`payloadlen = payload.length`).  The handler writes
a NUL after the last payload byte and compares the resulting C string with
the three command literals.  `system_reset()` does not return, so the
`RESET` branch never reaches the final assignment. -/
def messageArrived (s : Device) (payload : List Byte) (e : ArrivalEnv) : Device :=
  let s1 := throttleGate s e.overshoot
  let char_payload := payload ++ [0]
  if strcmp char_payload (ascii "ON" ++ [0]) = 0 then (s1.writeLed 1).stamp e.work
  else if strcmp char_payload (ascii "OFF" ++ [0]) = 0 then (s1.writeLed 0).stamp e.work
  else if strcmp char_payload (ascii "RESET" ++ [0]) = 0 then s1.system_reset
  else s1.stamp e.work

/-! ## `yield` -/

/-- What the environment decides during one call of `yield`. -/
structure YieldEnv where
  /-- The value returned by `client->yield(100)`. -/
  status : Int
  /-- Time spent inside that call. -/
  duration : Nat
  deriving DecidableEq, Repr

/-- The keep-alive callback `yield()` (lines 110-123). -/
def yield (s : Device) (e : YieldEnv) : Device :=
  let s1 := { s.elapse e.duration with rc := toInt32 e.status }
  let s2 := s1.emit (Action.transportYield 100 s1.rc)
  if s2.rc ≠ 0 then
    ((s2.emit (Action.queueCancel s2.id_yield)).emit Action.breakDispatch).system_reset
  else s2

/-! ## Sensor readings and `"%.2f"` -/

/-- A value of the C type `float`, as far as the program observes it: a
finite value is given exactly, as sign bit and magnitude `num / den` (with
`0 < den`); an infinity and a NaN carry their sign bit. -/
inductive CFloat
  | finite (neg : Bool) (num den : Nat)
  | inf (neg : Bool)
  | nan (neg : Bool)
  deriving DecidableEq, Repr

/-- The integer nearest to `num / den`, ties to the even neighbour. -/
def roundHalfEven (num den : Nat) : Nat :=
  let q := num / den
  let r := num % den
  if den < 2 * r ∨ (2 * r = den ∧ q % 2 = 1) then q + 1 else q

/-- Two decimal digits of a number below one hundred. -/
def twoDigits (n : Nat) : List Char :=
  [Nat.digitChar (n / 10 % 10), Nat.digitChar (n % 10)]

/-- The sign printed in front of a negative value. -/
def signChars (neg : Bool) : List Char := if neg then ['-'] else []

/-- The characters produced by the conversion `"%.2f"` (ISO C `printf`): a
minus sign when the sign bit is set, then for a finite value the decimal with
exactly two fractional digits nearest to the exact magnitude of the argument,
and `inf` or `nan` otherwise. -/
def fmt2f : CFloat → List Char
  | CFloat.finite neg num den =>
    let h := roundHalfEven (num * 100) den
    signChars neg ++ (Nat.repr (h / 100)).toList ++ ['.'] ++ twoDigits (h % 100)
  | CFloat.inf neg => signChars neg ++ "inf".toList
  | CFloat.nan neg => signChars neg ++ "nan".toList

/-- The NUL character. -/
def nul : Char := Char.ofNat 0

/-- The call `snprintf(buf, size, ...)` whose complete output would be `text`:
at most `size - 1` characters are stored, followed by a NUL. -/
def snprintf (size : Nat) (text : List Char) : List Char :=
  text.take (size - 1) ++ [nul]

/-- C `strlen`: the number of characters before the first NUL. -/
def strlen (buf : List Char) : Nat := (buf.takeWhile (fun c => c ≠ nul)).length

/-- The macro `MQTT_TOPIC_PUBLISH_PRESSURE`. -/
def MQTT_TOPIC_PUBLISH_PRESSURE : String := "snayzz/feeds/pressure"

/-- The macro `MQTT_GROUPS_PUBLISH`. -/
def MQTT_GROUPS_PUBLISH : String := "snayzz/groups/default/json"

/-- The enumerator `MQTT::QOS1`. -/
def QOS1 : Nat := 1

/-! ## `publish` and `publishTemperatureHumidity` -/

/-- What the environment decides during one call of `publish`. -/
structure PressureEnv where
  /-- Overshoot of the throttle sleep, if the gate sleeps. -/
  overshoot : Nat
  /-- The value returned by `bme280.pressure()`. -/
  pressure : CFloat
  /-- Time spent reading the sensor and formatting. -/
  prep : Nat
  /-- Time spent inside `client->publish`. -/
  transportTime : Nat
  /-- The value returned by `client->publish`. -/
  status : Int
  /-- Time between the return of `client->publish` and the final clock read. -/
  post : Nat
  deriving DecidableEq, Repr

/-- The transport call shared by the two publishing tasks (lines 143-151 and
177-184): the message carries the buffer and `strlen` of it, QoS 1; the call
lasts `transportTime` and its status is stored in the global `rc`. -/
def transportPublish (s : Device) (topic : String) (mqttPayload : List Char)
    (transportTime : Nat) (status : Int) : Device :=
  let payloadlen := strlen mqttPayload
  let s1 := s.elapse transportTime
  let s2 := { s1 with rc := toInt32 status }
  s2.emit (Action.transportPublish topic (mqttPayload.take payloadlen) payloadlen QOS1
    s.clock s1.clock s2.rc)

/-- The tail shared by the two publishing tasks (lines 152-158 and 185-191):

    if (rc != 0) { printf(...); return rc; }
    lastMessagePublish = Kernel::get_ms_count();
    return 0;

The function returns `int8_t`, so `return rc;` narrows the 32-bit status. -/
def publishTail (s : Device) (post : Nat) : Device × Int :=
  if s.rc ≠ 0 then (s, toInt8 s.rc)
  else (s.stamp post, 0)

/-- The pressure task `publish()` (lines 129-159). -/
def publish (s : Device) (e : PressureEnv) : Device × Int :=
  let s1 := throttleGate s e.overshoot
  let pressure := e.pressure
  let s2 := s1.elapse e.prep
  let mqttPayload := (snprintf 16 (fmt2f pressure)).set 15 nul
  let s3 := transportPublish s2 MQTT_TOPIC_PUBLISH_PRESSURE mqttPayload e.transportTime e.status
  publishTail s3 e.post

/-- What the environment decides during one call of
`publishTemperatureHumidity`. -/
structure TempHumEnv where
  /-- Overshoot of the throttle sleep, if the gate sleeps. -/
  overshoot : Nat
  /-- The value returned by `bme280.temperature()`. -/
  temperature : CFloat
  /-- The value returned by `bme280.humidity()`. -/
  humidity : CFloat
  /-- Time spent reading the sensor and formatting. -/
  prep : Nat
  /-- Time spent inside `client->publish`. -/
  transportTime : Nat
  /-- The value returned by `client->publish`. -/
  status : Int
  /-- Time between the return of `client->publish` and the final clock read. -/
  post : Nat
  deriving DecidableEq, Repr

/-- The complete output of the format
`{"feeds":{"temperature":%.2f,"humidity":%.2f}}`. -/
def feedsText (temperature humidity : CFloat) : List Char :=
  "\x7b\"feeds\":\x7b\"temperature\":".toList ++ fmt2f temperature
    ++ ",\"humidity\":".toList ++ fmt2f humidity ++ "\x7d\x7d".toList

/-- The telemetry task `publishTemperatureHumidity()` (lines 161-192). -/
def publishTemperatureHumidity (s : Device) (e : TempHumEnv) : Device × Int :=
  let s1 := throttleGate s e.overshoot
  let temperature := e.temperature
  let humidity := e.humidity
  let s2 := s1.elapse e.prep
  let mqttPayload := (snprintf 128 (feedsText temperature humidity)).set 127 nul
  let s3 := transportPublish s2 MQTT_GROUPS_PUBLISH mqttPayload e.transportTime e.status
  publishTail s3 e.post

/-! ## Reading a two-decimal rendering back

These definitions do not come from the program: they say, independently of
`fmt2f`, what it means for a text to be the two-decimal rendering of a
reading, by reading the text back. -/

/-- Whether a reading denotes a `float`: a finite one has a positive
denominator. -/
def CFloat.valid : CFloat → Prop
  | CFloat.finite _ _ den => 0 < den
  | _ => True

/-- The value of a decimal digit character, if it is one. -/
def digitValue (c : Char) : Option Nat :=
  if 48 ≤ c.toNat ∧ c.toNat ≤ 57 then some (c.toNat - 48) else none

/-- Reads decimal digits from left to right, continuing the value `v`; fails
on any other character. -/
def readDigitsFrom (v : Nat) : List Char → Option Nat
  | [] => some v
  | c :: cs =>
    match digitValue c with
    | some d => readDigitsFrom (10 * v + d) cs
    | none => none

/-- Reads a natural number in decimal: at least one digit, and no leading
zero except in the one-digit text `0`. -/
def readNatural (cs : List Char) : Option Nat :=
  if cs = [] then none
  else if cs.head? = some '0' ∧ cs.length ≠ 1 then none
  else readDigitsFrom 0 cs

/-- Reads a text of the shape `ddd.dd` or `-ddd.dd` (a natural number, a
point, exactly two digits): the result is whether a minus sign leads, and the
magnitude in hundredths. -/
def readFixed2 (text : List Char) : Option (Bool × Nat) :=
  let neg := decide (text.head? = some '-')
  let body := if neg then text.drop 1 else text
  match readNatural (body.take (body.length - 3)), body.drop (body.length - 3) with
  | some i, [p, a, b] =>
    if p = '.' then
      match digitValue a, digitValue b with
      | some x, some y => some (neg, 100 * i + 10 * x + y)
      | _, _ => none
    else none
  | _, _ => none

/-- What it means for `text` to be the two-decimal rendering of a reading.
For a finite reading with sign bit `neg` and magnitude `num / den`: the text
reads back as that sign and a number `h` of hundredths that is nearest to the
magnitude, `|100 * num / den - h| ≤ 1 / 2`.  For an infinity or a NaN: the
text is `inf` or `nan`, with a minus sign when the sign bit is set. -/
def TwoDecimalRendering : CFloat → List Char → Prop
  | CFloat.finite neg num den, text =>
    ∃ h : Nat, readFixed2 text = some (neg, h) ∧
      2 * h * den ≤ 200 * num + den ∧ 200 * num ≤ 2 * h * den + den
  | CFloat.inf neg, text => text = (if neg then "-inf" else "inf").toList
  | CFloat.nan neg, text => text = (if neg then "-nan" else "nan").toList

/-- The payload text the specification gives for the readings 21.5 and 48.3. -/
def telemetryExample : String :=
  "\x7b\"feeds\":\x7b\"temperature\":21.50,\"humidity\":48.30\x7d\x7d"

/-! ## `main` up to the dispatch loop -/

/-- What the collaborators answer during startup. -/
structure BootEnv where
  /-- Clock value when the startup `yield()` is reached. -/
  t0 : Nat
  /-- The value returned by the sensor's start-up call on `bme280`. -/
  sensorInit : Bool
  /-- Whether `NetworkInterface::get_default_instance()` is non-null. -/
  networkFound : Bool
  /-- The value returned by `network->connect()`. -/
  netConnect : Int
  /-- The value returned by `socket.connect(address)`. -/
  socketConnect : Int
  /-- The value returned by `client->connect(data)`. -/
  mqttConnect : Int
  /-- The values returned by the three `client->subscribe` calls. -/
  subscribeLed : Int
  subscribePressure : Int
  subscribeGroups : Int
  /-- The startup call of `yield()`. -/
  firstYield : YieldEnv
  /-- The identifier returned by `main_queue.call_every(1000, yield)`. -/
  idYield : Int
  deriving DecidableEq, Repr

/-- How `main` ends, or that it reached `main_queue.dispatch_forever()`. -/
inductive MainResult
  /-- The statement `return status;` was executed. -/
  | returned (status : Int)
  /-- The startup `yield()` invoked `system_reset()`. -/
  | restarted (s : Device)
  /-- The dispatch loop was entered in state `s`. -/
  | dispatching (s : Device)
  deriving DecidableEq, Repr

/-- The function `main()` (lines 197-294), up to the entry of the dispatch
loop.  The status of `client->connect` and of the subscriptions is only
printed. -/
def main (b : BootEnv) : MainResult :=
  if b.sensorInit = false then MainResult.returned 1
  else if b.networkFound = false then MainResult.returned 0
  else if toInt32 b.netConnect ≠ 0 then MainResult.returned (toInt32 b.netConnect)
  else if toInt32 b.socketConnect ≠ 0 then MainResult.returned (toInt32 b.socketConnect)
  else
    let s0 := { Device.boot b.t0 with rc := toInt32 b.subscribeGroups }
    let s1 := yield s0 b.firstYield
    if s1.halted then MainResult.restarted s1
    else MainResult.dispatching { s1 with id_yield := b.idYield }

/-- Whether `main` entered the dispatch loop. -/
def MainResult.entersDispatch : MainResult → Bool
  | MainResult.dispatching _ => true
  | _ => false

/-! ## The dispatch loop -/

/-- One callback run by the event queue or by the transport, or idle time. -/
inductive Event
  /-- The transport delivers a message to `messageArrived`. -/
  | arrival (payload : List Byte) (e : ArrivalEnv)
  /-- The periodic `yield` fires. -/
  | keepAlive (e : YieldEnv)
  /-- The button event runs `publish`. -/
  | button (e : PressureEnv)
  /-- The periodic `publishTemperatureHumidity` fires. -/
  | telemetry (e : TempHumEnv)
  /-- Nothing runs for `ms` milliseconds. -/
  | idle (ms : Nat)
  deriving DecidableEq, Repr

/-- One step of the dispatch loop.  After `system_reset()` nothing runs. -/
def step (s : Device) (ev : Event) : Device :=
  if s.halted then s
  else
    match ev with
    | Event.arrival payload e => messageArrived s payload e
    | Event.keepAlive e => yield s e
    | Event.button e => (publish s e).1
    | Event.telemetry e => (publishTemperatureHumidity s e).1
    | Event.idle ms => s.elapse ms

/-- A run of the dispatch loop. -/
def run (s : Device) (evs : List Event) : Device := evs.foldl step s

/-! ## Observations on traces -/

/-- Whether an action is a throttle sleep. -/
def Action.isSleep : Action → Bool
  | Action.sleepFor _ => true
  | _ => false

/-- The actions other than throttle sleeps issued between state `s` and a
later state `r`. -/
def effects (s r : Device) : List Action :=
  (r.trace.drop s.trace.length).filter (fun a => !a.isSleep)

/-- The throttle sleeps issued between state `s` and a later state `r`. -/
def sleeps (s r : Device) : List Action :=
  (r.trace.drop s.trace.length).filter (fun a => a.isSleep)

/-- The successful transport publishes of a trace, each as the pair of the
clock at the call and the clock at the return. -/
def successfulSends : List Action → List (Nat × Nat)
  | [] => []
  | Action.transportPublish _ _ _ _ tCall tRet status :: rest =>
    if status = 0 then (tCall, tRet) :: successfulSends rest else successfulSends rest
  | _ :: rest => successfulSends rest

/-- A sample run from boot: a button press, idle time, a telemetry tick, an
inbound `ON`, a button press whose publish fails, and a further button press. -/
def sampleRun : List Event :=
  [Event.button ⟨0, CFloat.finite false 8300593 8192, 2, 40, 0, 1⟩,
   Event.idle 300,
   Event.telemetry ⟨5, CFloat.finite false 43 2, CFloat.finite false 12661555 262144,
     2, 40, 0, 1⟩,
   Event.arrival (ascii "ON") ⟨0, 1⟩,
   Event.button ⟨0, CFloat.finite false 8300593 8192, 2, 40, -1, 1⟩,
   Event.button ⟨0, CFloat.finite false 8300593 8192, 2, 40, 0, 1⟩]

/-- The spacing invariant of the throttle: the timestamp is not ahead of the
clock, every successful send returned no later than the timestamp, and any
two successful sends are at least 1000 ms apart (return of the earlier to
call of the later). -/
def ThrottleInv (s : Device) : Prop :=
  s.lastMessagePublish ≤ s.clock ∧
  (∀ p ∈ successfulSends s.trace, p.2 ≤ s.lastMessagePublish) ∧
  List.Pairwise (fun a b : Nat × Nat => a.2 + 1000 ≤ b.1) (successfulSends s.trace)

/-! ## Basic facts about the throttle gate -/

theorem throttleGate_eq (s : Device) (o : Nat) :
    throttleGate s o =
      if subU64 s.get_ms_count s.lastMessagePublish < 1000 then
        s.sleep_for (subU64 1200 (subU64 s.get_ms_count s.lastMessagePublish)) o
      else s := rfl

theorem throttleGate_led (s : Device) (o : Nat) : (throttleGate s o).led = s.led := by
  rw [throttleGate_eq]
  unfold Device.sleep_for
  split <;> rfl

theorem throttleGate_halted (s : Device) (o : Nat) :
    (throttleGate s o).halted = s.halted := by
  rw [throttleGate_eq]
  unfold Device.sleep_for
  split <;> rfl

theorem throttleGate_last (s : Device) (o : Nat) :
    (throttleGate s o).lastMessagePublish = s.lastMessagePublish := by
  rw [throttleGate_eq]
  unfold Device.sleep_for
  split <;> rfl

theorem throttleGate_trace (s : Device) (o : Nat) :
    ∃ pre : List Action, (throttleGate s o).trace = s.trace ++ pre ∧
      pre.filter (fun a => !a.isSleep) = [] := by
  rw [throttleGate_eq]
  unfold Device.sleep_for
  split
  · exact ⟨[Action.sleepFor _], rfl, rfl⟩
  · exact ⟨[], by simp, rfl⟩

theorem effects_append (s r : Device) (pre post : List Action)
    (h : r.trace = s.trace ++ pre ++ post)
    (hpre : pre.filter (fun a => !a.isSleep) = []) :
    effects s r = post.filter (fun a => !a.isSleep) := by
  unfold effects
  rw [h, List.append_assoc, List.drop_left, List.filter_append, hpre, List.nil_append]

/-! ## C1: the three commands -/

/-- C1. For a payload that is exactly `ON`, `OFF` or `RESET`, `messageArrived`
performs the corresponding effect and no other: `ON` writes 1 to the output
and `OFF` writes 0, neither invoking the restart; `RESET` invokes the restart
and leaves the output as it was.  (Throttle sleeps are not counted as
effects.) -/
theorem messageArrived_commands (s : Device) (e : ArrivalEnv) :
    ((messageArrived s (ascii "ON") e).led = 1 ∧
      (messageArrived s (ascii "ON") e).halted = s.halted ∧
      effects s (messageArrived s (ascii "ON") e) = [Action.ledWrite 1]) ∧
    ((messageArrived s (ascii "OFF") e).led = 0 ∧
      (messageArrived s (ascii "OFF") e).halted = s.halted ∧
      effects s (messageArrived s (ascii "OFF") e) = [Action.ledWrite 0]) ∧
    ((messageArrived s (ascii "RESET") e).led = s.led ∧
      (messageArrived s (ascii "RESET") e).halted = true ∧
      effects s (messageArrived s (ascii "RESET") e) = [Action.systemReset]) := by
  obtain ⟨pre, hpre, hfil⟩ := throttleGate_trace s e.overshoot
  have hled := throttleGate_led s e.overshoot
  have hhalt := throttleGate_halted s e.overshoot
  have hON : strcmp (ascii "ON" ++ [0]) (ascii "ON" ++ [0]) = 0 := by decide
  have hOFF1 : strcmp (ascii "OFF" ++ [0]) (ascii "ON" ++ [0]) ≠ 0 := by decide
  have hOFF : strcmp (ascii "OFF" ++ [0]) (ascii "OFF" ++ [0]) = 0 := by decide
  have hR1 : strcmp (ascii "RESET" ++ [0]) (ascii "ON" ++ [0]) ≠ 0 := by decide
  have hR2 : strcmp (ascii "RESET" ++ [0]) (ascii "OFF" ++ [0]) ≠ 0 := by decide
  have hR : strcmp (ascii "RESET" ++ [0]) (ascii "RESET" ++ [0]) = 0 := by decide
  refine ⟨?_, ?_, ?_⟩
  · have key : messageArrived s (ascii "ON") e =
        ((throttleGate s e.overshoot).writeLed 1).stamp e.work := by
      simp only [messageArrived, hON, if_true]
    rw [key]
    refine ⟨rfl, hhalt, ?_⟩
    exact (effects_append s _ pre [Action.ledWrite 1]
      (by simp [Device.stamp, Device.writeLed, Device.elapse, hpre]) hfil).trans rfl
  · have key : messageArrived s (ascii "OFF") e =
        ((throttleGate s e.overshoot).writeLed 0).stamp e.work := by
      simp only [messageArrived, hOFF, hOFF1, if_true, if_false]
    rw [key]
    refine ⟨rfl, hhalt, ?_⟩
    exact (effects_append s _ pre [Action.ledWrite 0]
      (by simp [Device.stamp, Device.writeLed, Device.elapse, hpre]) hfil).trans rfl
  · have key : messageArrived s (ascii "RESET") e =
        (throttleGate s e.overshoot).system_reset := by
      simp only [messageArrived, hR, hR1, hR2, if_true, if_false]
    rw [key]
    refine ⟨hled, rfl, ?_⟩
    exact (effects_append s _ pre [Action.systemReset]
      (by simp [Device.system_reset, hpre]) hfil).trans rfl

/-! ## C2: payloads that are not commands -/

theorem byte_val_sub_ne_zero (a b : Byte) (h : a ≠ b) : (a.val : Int) - (b.val : Int) ≠ 0 := by
  intro h0
  apply h
  apply Fin.ext
  omega

/-- The comparison made by the handler succeeds exactly when the bytes of the
payload before its first NUL are the command literal. -/
theorem strcmp_eq_zero_iff (lit : List Byte) (hlit : ∀ b ∈ lit, b ≠ 0) (p : List Byte) :
    strcmp (p ++ [0]) (lit ++ [0]) = 0 ↔ cString p = lit := by
  induction p generalizing lit with
  | nil =>
    cases lit with
    | nil => simp [strcmp, cString]
    | cons b bs =>
      have hb : b ≠ 0 := hlit b (List.mem_cons_self _ _)
      have hb2 : (0 : Byte) ≠ b := fun h => hb h.symm
      have hv : (b.val : Int) ≠ 0 := by
        intro h0
        apply hb
        apply Fin.ext
        simpa using h0
      simp [strcmp, cString, hb2, hv]
  | cons a as ih =>
    cases lit with
    | nil =>
      by_cases ha : a = 0
      · subst ha
        simp [strcmp, cString]
      · have hv : (a.val : Int) ≠ 0 := by
          intro h0
          apply ha
          apply Fin.ext
          simpa using h0
        simp [strcmp, cString, ha, hv]
    | cons b bs =>
      have hb : b ≠ 0 := hlit b (List.mem_cons_self _ _)
      have hbs : ∀ c ∈ bs, c ≠ 0 := fun c hc => hlit c (List.mem_cons_of_mem _ hc)
      by_cases hab : a = b
      · subst hab
        have := ih bs hbs
        simp only [List.cons_append, strcmp, if_true, hb, if_false, cString] at this ⊢
        change strcmp (as ++ [0]) (bs ++ [0]) = 0 ↔ _
        rw [this]
        simp [List.takeWhile_cons, hb]
      · have hne := byte_val_sub_ne_zero a b hab
        by_cases ha : a = 0
        · subst ha
          have hv : (b.val : Int) ≠ 0 := by
            intro h0
            apply hb
            apply Fin.ext
            simpa using h0
          simp [strcmp, cString, hab, hv]
        · simp [strcmp, cString, hab, hne, List.takeWhile_cons, ha]

theorem ascii_ON_nonzero : ∀ b ∈ ascii "ON", b ≠ 0 := by
  have h : ascii "ON" = [79, 78] := by decide
  rw [h]
  intro b hb
  simp only [List.mem_cons, List.mem_singleton, List.not_mem_nil, or_false] at hb
  rcases hb with rfl | rfl <;> decide

theorem ascii_OFF_nonzero : ∀ b ∈ ascii "OFF", b ≠ 0 := by
  have h : ascii "OFF" = [79, 70, 70] := by decide
  rw [h]
  intro b hb
  simp only [List.mem_cons, List.mem_singleton, List.not_mem_nil, or_false] at hb
  rcases hb with rfl | rfl | rfl <;> decide

theorem ascii_RESET_nonzero : ∀ b ∈ ascii "RESET", b ≠ 0 := by
  have h : ascii "RESET" = [82, 69, 83, 69, 84] := by decide
  rw [h]
  intro b hb
  simp only [List.mem_cons, List.mem_singleton, List.not_mem_nil, or_false] at hb
  rcases hb with rfl | rfl | rfl | rfl | rfl <;> decide

/-- C2, as stated, fails: the four-byte payload `O N NUL 0xFF` is none of the
three commands, yet the handler switches the output on; and the six-byte
payload `R E S E T NUL` is none of them, yet the handler restarts the
device. -/
theorem messageArrived_embedded_nul :
    ascii "ON" ++ [0, 255] ≠ ascii "ON" ∧
    ascii "ON" ++ [0, 255] ≠ ascii "OFF" ∧
    ascii "ON" ++ [0, 255] ≠ ascii "RESET" ∧
    (Device.boot 5000).led = 0 ∧
    (messageArrived (Device.boot 5000) (ascii "ON" ++ [0, 255]) ⟨0, 0⟩).led = 1 ∧
    ascii "RESET" ++ [0] ≠ ascii "ON" ∧
    ascii "RESET" ++ [0] ≠ ascii "OFF" ∧
    ascii "RESET" ++ [0] ≠ ascii "RESET" ∧
    (messageArrived (Device.boot 5000) (ascii "RESET" ++ [0]) ⟨0, 0⟩).trace
      = [Action.systemReset] := by
  decide

/-- C2, amended. For every payload whose bytes before its first zero byte (the
whole payload when it has none) are not exactly `ON`, `OFF` or `RESET`,
`messageArrived` leaves the binary output unchanged, does not invoke the
restart, and issues no action other than a possible throttle sleep. -/
theorem messageArrived_other_payload (s : Device) (payload : List Byte) (e : ArrivalEnv)
    (hON : cString payload ≠ ascii "ON") (hOFF : cString payload ≠ ascii "OFF")
    (hRESET : cString payload ≠ ascii "RESET") :
    (messageArrived s payload e).led = s.led ∧
    (messageArrived s payload e).halted = s.halted ∧
    effects s (messageArrived s payload e) = [] := by
  obtain ⟨pre, hpre, hfil⟩ := throttleGate_trace s e.overshoot
  have hled := throttleGate_led s e.overshoot
  have hhalt := throttleGate_halted s e.overshoot
  have h1 : strcmp (payload ++ [0]) (ascii "ON" ++ [0]) ≠ 0 :=
    fun h => hON ((strcmp_eq_zero_iff _ ascii_ON_nonzero payload).1 h)
  have h2 : strcmp (payload ++ [0]) (ascii "OFF" ++ [0]) ≠ 0 :=
    fun h => hOFF ((strcmp_eq_zero_iff _ ascii_OFF_nonzero payload).1 h)
  have h3 : strcmp (payload ++ [0]) (ascii "RESET" ++ [0]) ≠ 0 :=
    fun h => hRESET ((strcmp_eq_zero_iff _ ascii_RESET_nonzero payload).1 h)
  have key : messageArrived s payload e = (throttleGate s e.overshoot).stamp e.work := by
    simp only [messageArrived, h1, h2, h3, if_false]
  rw [key]
  refine ⟨hled, hhalt, ?_⟩
  exact (effects_append s _ pre []
    (by simp [Device.stamp, Device.elapse, hpre]) hfil).trans rfl

/-- C2, amended, at the payloads named by the claim: the empty payload, `on`,
`ON` followed by a blank, and binary data with a zero byte in front. -/
theorem messageArrived_other_payload_witness :
    ((messageArrived (Device.boot 5000) [] ⟨0, 0⟩).led = (Device.boot 5000).led ∧
      (messageArrived (Device.boot 5000) [] ⟨0, 0⟩).halted = (Device.boot 5000).halted ∧
      effects (Device.boot 5000) (messageArrived (Device.boot 5000) [] ⟨0, 0⟩) = []) ∧
    ((messageArrived (Device.boot 5000) (ascii "on") ⟨0, 0⟩).led = (Device.boot 5000).led ∧
      (messageArrived (Device.boot 5000) (ascii "on") ⟨0, 0⟩).halted
        = (Device.boot 5000).halted ∧
      effects (Device.boot 5000) (messageArrived (Device.boot 5000) (ascii "on") ⟨0, 0⟩)
        = []) ∧
    ((messageArrived (Device.boot 5000) (ascii "ON ") ⟨0, 0⟩).led = (Device.boot 5000).led ∧
      (messageArrived (Device.boot 5000) (ascii "ON ") ⟨0, 0⟩).halted
        = (Device.boot 5000).halted ∧
      effects (Device.boot 5000) (messageArrived (Device.boot 5000) (ascii "ON ") ⟨0, 0⟩)
        = []) ∧
    ((messageArrived (Device.boot 5000) ([0, 255] ++ ascii "ON") ⟨0, 0⟩).led
        = (Device.boot 5000).led ∧
      (messageArrived (Device.boot 5000) ([0, 255] ++ ascii "ON") ⟨0, 0⟩).halted
        = (Device.boot 5000).halted ∧
      effects (Device.boot 5000)
        (messageArrived (Device.boot 5000) ([0, 255] ++ ascii "ON") ⟨0, 0⟩) = []) :=
  ⟨messageArrived_other_payload _ _ _ (by decide) (by decide) (by decide),
   messageArrived_other_payload _ _ _ (by decide) (by decide) (by decide),
   messageArrived_other_payload _ _ _ (by decide) (by decide) (by decide),
   messageArrived_other_payload _ _ _ (by decide) (by decide) (by decide)⟩

/-! ## Machine integer facts -/

theorem toInt32_of_range (x : Int) (hlo : -2 ^ 31 ≤ x) (hhi : x < 2 ^ 31) : toInt32 x = x := by
  unfold toInt32
  omega

theorem toInt8_eq_zero_iff (x : Int) : toInt8 x = 0 ↔ x % 256 = 0 := by
  unfold toInt8
  omega

/-! ## C6: the keep-alive tick -/

/-- C6. For every 32-bit status returned by `client->yield(100)`: when it is
non-zero, `yield` then issues exactly `main_queue.cancel(id_yield)`,
`main_queue.break_dispatch()`, `system_reset()`, in this order and once each;
when it is zero, `yield` issues nothing after the service call. -/
theorem yield_fatal_sequence (s : Device) (e : YieldEnv)
    (hlo : -2 ^ 31 ≤ e.status) (hhi : e.status < 2 ^ 31) :
    (yield s e).trace =
      s.trace ++ Action.transportYield 100 e.status ::
        (if e.status ≠ 0 then
          [Action.queueCancel s.id_yield, Action.breakDispatch, Action.systemReset]
        else []) ∧
    (yield s e).halted = (s.halted || decide (e.status ≠ 0)) := by
  have h32 := toInt32_of_range e.status hlo hhi
  by_cases h0 : e.status = 0
  · have hz : toInt32 0 = 0 := by decide
    simp [yield, Device.emit, Device.elapse, Device.system_reset, h0, hz]
  · simp [yield, Device.emit, Device.elapse, Device.system_reset, h32, h0]

/-- C6 at the statuses `-1` (failure) and `0` (success). -/
theorem yield_fatal_sequence_witness :
    ((yield (Device.boot 7000) ⟨-1, 100⟩).trace =
        (Device.boot 7000).trace ++ Action.transportYield 100 (-1) ::
          (if (-1 : Int) ≠ 0 then
            [Action.queueCancel (Device.boot 7000).id_yield, Action.breakDispatch,
              Action.systemReset]
          else []) ∧
      (yield (Device.boot 7000) ⟨-1, 100⟩).halted
        = ((Device.boot 7000).halted || decide ((-1 : Int) ≠ 0))) ∧
    ((yield (Device.boot 7000) ⟨0, 100⟩).trace =
        (Device.boot 7000).trace ++ Action.transportYield 100 0 ::
          (if (0 : Int) ≠ 0 then
            [Action.queueCancel (Device.boot 7000).id_yield, Action.breakDispatch,
              Action.systemReset]
          else []) ∧
      (yield (Device.boot 7000) ⟨0, 100⟩).halted
        = ((Device.boot 7000).halted || decide ((0 : Int) ≠ 0))) :=
  ⟨yield_fatal_sequence (Device.boot 7000) ⟨-1, 100⟩ (by decide) (by decide),
   yield_fatal_sequence (Device.boot 7000) ⟨0, 100⟩ (by decide) (by decide)⟩

/-! ## C7: startup failures -/

/-- A failing sensor start-up makes `main` return 1. -/
theorem main_sensor_failure (b : BootEnv) (h : b.sensorInit = false) :
    main b = MainResult.returned 1 := by
  simp [main, h]

/-- A failing `network->connect()` makes `main` return its non-zero status. -/
theorem main_network_connect_failure (b : BootEnv) (hs : b.sensorInit = true)
    (hn : b.networkFound = true) (hc : toInt32 b.netConnect ≠ 0) :
    main b = MainResult.returned (toInt32 b.netConnect) := by
  simp [main, hs, hn, hc]

/-- A failing `socket.connect(address)` makes `main` return its non-zero
status. -/
theorem main_socket_connect_failure (b : BootEnv) (hs : b.sensorInit = true)
    (hn : b.networkFound = true) (hc : toInt32 b.netConnect = 0)
    (hk : toInt32 b.socketConnect ≠ 0) :
    main b = MainResult.returned (toInt32 b.socketConnect) := by
  simp [main, hs, hn, hc, hk]

/-- A missing network interface makes `main` return 0, whatever the other
collaborators would have answered. -/
theorem main_no_network (b : BootEnv) (hs : b.sensorInit = true)
    (hn : b.networkFound = false) : main b = MainResult.returned 0 := by
  simp [main, hs, hn]

/-- C7, the failing path. With a working sensor and no network interface
(`get_default_instance()` null), `main` does not enter the dispatch loop but
returns status 0, not a non-zero status. -/
theorem main_no_network_returns_zero :
    main { t0 := 0, sensorInit := true, networkFound := false, netConnect := 0,
           socketConnect := 0, mqttConnect := 0, subscribeLed := 0,
           subscribePressure := 0, subscribeGroups := 0,
           firstYield := ⟨0, 0⟩, idYield := 1 } = MainResult.returned 0 ∧
    (main { t0 := 0, sensorInit := true, networkFound := false, netConnect := 0,
            socketConnect := 0, mqttConnect := 0, subscribeLed := 0,
            subscribePressure := 0, subscribeGroups := 0,
            firstYield := ⟨0, 0⟩, idYield := 1 }).entersDispatch = false := by
  decide

/-! ## Structure of the publishing tasks -/

theorem publish_eq (s : Device) (e : PressureEnv) :
    publish s e =
      publishTail
        (transportPublish ((throttleGate s e.overshoot).elapse e.prep)
          MQTT_TOPIC_PUBLISH_PRESSURE ((snprintf 16 (fmt2f e.pressure)).set 15 nul)
          e.transportTime e.status) e.post := rfl

theorem publishTemperatureHumidity_eq (s : Device) (e : TempHumEnv) :
    publishTemperatureHumidity s e =
      publishTail
        (transportPublish ((throttleGate s e.overshoot).elapse e.prep)
          MQTT_GROUPS_PUBLISH
          ((snprintf 128 (feedsText e.temperature e.humidity)).set 127 nul)
          e.transportTime e.status) e.post := rfl

theorem transportPublish_rc (s : Device) (topic : String) (buf : List Char)
    (tt : Nat) (status : Int) :
    (transportPublish s topic buf tt status).rc = toInt32 status := rfl

theorem transportPublish_last (s : Device) (topic : String) (buf : List Char)
    (tt : Nat) (status : Int) :
    (transportPublish s topic buf tt status).lastMessagePublish = s.lastMessagePublish := rfl

theorem transportPublish_trace (s : Device) (topic : String) (buf : List Char)
    (tt : Nat) (status : Int) :
    (transportPublish s topic buf tt status).trace =
      s.trace ++ [Action.transportPublish topic (buf.take (strlen buf)) (strlen buf) QOS1
        s.clock (s.clock + tt) (toInt32 status)] := rfl

theorem publishTail_fail (s : Device) (post : Nat) (h : s.rc ≠ 0) :
    publishTail s post = (s, toInt8 s.rc) := by
  simp [publishTail, h]

theorem publishTail_ok (s : Device) (post : Nat) (h : s.rc = 0) :
    publishTail s post = (s.stamp post, 0) := by
  simp [publishTail, h]

theorem publishTail_trace (s : Device) (post : Nat) : (publishTail s post).1.trace = s.trace := by
  unfold publishTail
  split <;> rfl

theorem publishTail_value (s : Device) (post : Nat) : (publishTail s post).2 = toInt8 s.rc := by
  unfold publishTail
  split
  · rfl
  · rename_i h
    have h0 : s.rc = 0 := by simpa using h
    rw [h0]
    rfl

/-! ## C10: the narrowed return value -/

/-- The value returned by `publish` is the status narrowed to eight bits. -/
theorem publish_value (s : Device) (e : PressureEnv) :
    (publish s e).2 = toInt8 (toInt32 e.status) := by
  rw [publish_eq, publishTail_value, transportPublish_rc]

/-- The value returned by `publishTemperatureHumidity` is the status narrowed
to eight bits. -/
theorem publishTemperatureHumidity_value (s : Device) (e : TempHumEnv) :
    (publishTemperatureHumidity s e).2 = toInt8 (toInt32 e.status) := by
  rw [publishTemperatureHumidity_eq, publishTail_value, transportPublish_rc]

/-- Both tasks return zero exactly when the 32-bit status is a multiple of
256. -/
theorem publish_value_zero_iff (s : Device) (e : PressureEnv) (t : TempHumEnv)
    (rc : Int) (hlo : -2 ^ 31 ≤ rc) (hhi : rc < 2 ^ 31)
    (he : e.status = rc) (ht : t.status = rc) :
    ((publish s e).2 = 0 ↔ rc % 256 = 0) ∧
    ((publishTemperatureHumidity s t).2 = 0 ↔ rc % 256 = 0) := by
  rw [publish_value, publishTemperatureHumidity_value, he, ht,
    toInt32_of_range rc hlo hhi, toInt8_eq_zero_iff]
  exact ⟨Iff.rfl, Iff.rfl⟩

/-- C10, the failing input. When `client->publish` returns the non-zero
32-bit status 256, both tasks store 256 in `rc`, take the failure branch
(`lastMessagePublish` keeps its value 0), and return the 8-bit value 0. -/
theorem publish_status_256_returns_zero :
    (publish (Device.boot 5000)
      ⟨0, CFloat.finite false 8300593 8192, 0, 40, 256, 0⟩).2 = 0 ∧
    (publish (Device.boot 5000)
      ⟨0, CFloat.finite false 8300593 8192, 0, 40, 256, 0⟩).1.rc = 256 ∧
    (publish (Device.boot 5000)
      ⟨0, CFloat.finite false 8300593 8192, 0, 40, 256, 0⟩).1.lastMessagePublish = 0 ∧
    (publishTemperatureHumidity (Device.boot 5000)
      ⟨0, CFloat.finite false 43 2, CFloat.finite false 12661555 262144,
        0, 40, 256, 0⟩).2 = 0 ∧
    (publishTemperatureHumidity (Device.boot 5000)
      ⟨0, CFloat.finite false 43 2, CFloat.finite false 12661555 262144,
        0, 40, 256, 0⟩).1.rc = 256 ∧
    (publishTemperatureHumidity (Device.boot 5000)
      ⟨0, CFloat.finite false 43 2, CFloat.finite false 12661555 262144,
        0, 40, 256, 0⟩).1.lastMessagePublish = 0 := by
  decide

/-! ## C4: when the timestamp is recorded -/

/-- C4, as stated, fails: from the boot state at clock 5000, a publish attempt
whose transport call lasts 40 ms and returns `-1` ends at clock 5040 with
`lastMessagePublish` still 0, in both tasks. -/
theorem publish_failure_keeps_timestamp :
    (publish (Device.boot 5000)
      ⟨0, CFloat.finite false 8300593 8192, 0, 40, -1, 0⟩).1.clock = 5040 ∧
    (publish (Device.boot 5000)
      ⟨0, CFloat.finite false 8300593 8192, 0, 40, -1, 0⟩).1.lastMessagePublish = 0 ∧
    (publishTemperatureHumidity (Device.boot 5000)
      ⟨0, CFloat.finite false 43 2, CFloat.finite false 12661555 262144,
        0, 40, -1, 0⟩).1.clock = 5040 ∧
    (publishTemperatureHumidity (Device.boot 5000)
      ⟨0, CFloat.finite false 43 2, CFloat.finite false 12661555 262144,
        0, 40, -1, 0⟩).1.lastMessagePublish = 0 := by
  decide

/-- C4, amended. For every 32-bit status returned by the transport publish:
when it is zero, `lastMessagePublish` is set to the clock value read after the
attempt (after gate, preparation, transport call and the time up to the
read); when it is non-zero, the task returns early and `lastMessagePublish`
keeps its previous value.  This holds for `publish` and for
`publishTemperatureHumidity`. -/
theorem publish_timestamp (s : Device) (e : PressureEnv) (t : TempHumEnv)
    (hlo : -2 ^ 31 ≤ e.status) (hhi : e.status < 2 ^ 31)
    (hlo2 : -2 ^ 31 ≤ t.status) (hhi2 : t.status < 2 ^ 31) :
    (e.status = 0 →
      (publish s e).1.lastMessagePublish = (publish s e).1.get_ms_count ∧
      (publish s e).1.clock =
        (throttleGate s e.overshoot).clock + e.prep + e.transportTime + e.post) ∧
    (e.status ≠ 0 → (publish s e).1.lastMessagePublish = s.lastMessagePublish) ∧
    (t.status = 0 →
      (publishTemperatureHumidity s t).1.lastMessagePublish
        = (publishTemperatureHumidity s t).1.get_ms_count ∧
      (publishTemperatureHumidity s t).1.clock =
        (throttleGate s t.overshoot).clock + t.prep + t.transportTime + t.post) ∧
    (t.status ≠ 0 →
      (publishTemperatureHumidity s t).1.lastMessagePublish = s.lastMessagePublish) := by
  have h32 := toInt32_of_range e.status hlo hhi
  have h32t := toInt32_of_range t.status hlo2 hhi2
  refine ⟨?_, ?_, ?_, ?_⟩
  · intro h0
    rw [publish_eq, publishTail_ok _ _ (by rw [transportPublish_rc, h32, h0])]
    exact ⟨rfl, rfl⟩
  · intro h0
    rw [publish_eq, publishTail_fail _ _ (by rw [transportPublish_rc, h32]; exact h0)]
    exact throttleGate_last s e.overshoot
  · intro h0
    rw [publishTemperatureHumidity_eq,
      publishTail_ok _ _ (by rw [transportPublish_rc, h32t, h0])]
    exact ⟨rfl, rfl⟩
  · intro h0
    rw [publishTemperatureHumidity_eq,
      publishTail_fail _ _ (by rw [transportPublish_rc, h32t]; exact h0)]
    exact throttleGate_last s t.overshoot

/-- C4, amended, at a successful and at a failed attempt. -/
theorem publish_timestamp_witness :
    ((publish (Device.boot 5000)
        ⟨0, CFloat.finite false 8300593 8192, 2, 40, 0, 1⟩).1.lastMessagePublish =
      (publish (Device.boot 5000)
        ⟨0, CFloat.finite false 8300593 8192, 2, 40, 0, 1⟩).1.get_ms_count) ∧
    ((publishTemperatureHumidity (Device.boot 5000)
        ⟨0, CFloat.finite false 43 2, CFloat.finite false 12661555 262144,
          2, 40, -1, 1⟩).1.lastMessagePublish = (Device.boot 5000).lastMessagePublish) :=
  ⟨((publish_timestamp (Device.boot 5000)
      ⟨0, CFloat.finite false 8300593 8192, 2, 40, 0, 1⟩
      ⟨0, CFloat.finite false 43 2, CFloat.finite false 12661555 262144, 2, 40, -1, 1⟩
      (by decide) (by decide) (by decide) (by decide)).1 rfl).1,
   (publish_timestamp (Device.boot 5000)
      ⟨0, CFloat.finite false 8300593 8192, 2, 40, 0, 1⟩
      ⟨0, CFloat.finite false 43 2, CFloat.finite false 12661555 262144, 2, 40, -1, 1⟩
      (by decide) (by decide) (by decide) (by decide)).2.2.2 (by decide)⟩

/-! ## C5: the boundary of the gate -/

theorem subU64_of_le (a b : Nat) (hb : b ≤ a) (ha : a < U64) : subU64 a b = a - b := by
  unfold subU64
  unfold U64 at *
  omega

/-- On a clock that has not wrapped, the gate sleeps exactly when fewer than
1000 ms have passed, and then for `1200 - elapsed`. -/
theorem throttleGate_of_le (s : Device) (o : Nat)
    (hle : s.lastMessagePublish ≤ s.clock) (hclk : s.clock < U64) :
    throttleGate s o =
      if s.clock - s.lastMessagePublish < 1000 then
        s.sleep_for (1200 - (s.clock - s.lastMessagePublish)) o
      else s := by
  have hms : s.get_ms_count = s.clock := Nat.mod_eq_of_lt hclk
  have hsub : subU64 s.get_ms_count s.lastMessagePublish = s.clock - s.lastMessagePublish := by
    rw [hms]
    exact subU64_of_le _ _ hle hclk
  rw [throttleGate_eq, hsub]
  split
  · rename_i h
    have h2 : subU64 1200 (s.clock - s.lastMessagePublish)
        = 1200 - (s.clock - s.lastMessagePublish) :=
      subU64_of_le _ _ (by omega) (by unfold U64; omega)
    rw [h2]
  · rfl

theorem messageArrived_trace (s : Device) (payload : List Byte) (e : ArrivalEnv) :
    ∃ post : List Action,
      (messageArrived s payload e).trace = (throttleGate s e.overshoot).trace ++ post ∧
      post.filter (fun a => a.isSleep) = [] := by
  simp only [messageArrived]
  split_ifs
  · exact ⟨[Action.ledWrite 1], rfl, rfl⟩
  · exact ⟨[Action.ledWrite 0], rfl, rfl⟩
  · exact ⟨[Action.systemReset], rfl, rfl⟩
  · exact ⟨[], by simp [Device.stamp, Device.elapse], rfl⟩

theorem publish_trace (s : Device) (e : PressureEnv) :
    ∃ post : List Action,
      (publish s e).1.trace = (throttleGate s e.overshoot).trace ++ post ∧
      post.filter (fun a => a.isSleep) = [] := by
  rw [publish_eq, publishTail_trace, transportPublish_trace]
  exact ⟨_, rfl, rfl⟩

theorem publishTemperatureHumidity_trace (s : Device) (e : TempHumEnv) :
    ∃ post : List Action,
      (publishTemperatureHumidity s e).1.trace = (throttleGate s e.overshoot).trace ++ post ∧
      post.filter (fun a => a.isSleep) = [] := by
  rw [publishTemperatureHumidity_eq, publishTail_trace, transportPublish_trace]
  exact ⟨_, rfl, rfl⟩

theorem sleeps_of_gate (s r : Device) (o : Nat) (post : List Action)
    (h : r.trace = (throttleGate s o).trace ++ post)
    (hpost : post.filter (fun a => a.isSleep) = [])
    (hle : s.lastMessagePublish ≤ s.clock) (hclk : s.clock < U64) :
    sleeps s r =
      if s.clock - s.lastMessagePublish < 1000 then
        [Action.sleepFor (1200 - (s.clock - s.lastMessagePublish))]
      else [] := by
  unfold sleeps
  rw [h, throttleGate_of_le s o hle hclk]
  split
  · show List.filter _ (List.drop s.trace.length ((s.trace ++ [_]) ++ post)) = _
    rw [List.append_assoc, List.drop_left, List.filter_append, hpost]
    rfl
  · rw [List.drop_left, hpost]

theorem throttleGate_clock_ge (s : Device) (o : Nat)
    (hle : s.lastMessagePublish ≤ s.clock) (hclk : s.clock < U64) :
    s.clock ≤ (throttleGate s o).clock ∧
    s.lastMessagePublish + 1000 ≤ (throttleGate s o).clock ∧
    (s.clock - s.lastMessagePublish < 1000 →
      s.lastMessagePublish + 1200 ≤ (throttleGate s o).clock) := by
  rw [throttleGate_of_le s o hle hclk]
  split
  · simp only [Device.sleep_for]
    omega
  · omega

/-- C5, as stated, fails: with `lastMessagePublish = 2500` and the clock at
3500 (elapsed exactly 1000 ms) the gate does not sleep; `publish` calls the
transport at clock 3500 and `messageArrived` writes the output at clock 3500,
both before 3700. -/
theorem gate_open_at_exactly_1000 :
    subU64
      (Device.get_ms_count (Device.running 3500 2500)) 2500 = 1000 ∧
    throttleGate (Device.running 3500 2500) 0 =
      (Device.running 3500 2500) ∧
    (publish (Device.running 3500 2500)
      ⟨0, CFloat.finite false 8300593 8192, 0, 40, 0, 0⟩).1.trace =
      [Action.transportPublish "snayzz/feeds/pressure" "1013.26".toList 7 1 3500 3540 0] ∧
    messageArrived (Device.running 3500 2500) (ascii "ON") ⟨0, 0⟩ =
      { clock := 3500, lastMessagePublish := 3500, led := 1, rc := 0,
        id_yield := 1, halted := false, trace := [Action.ledWrite 1] } := by
  decide

/-- C5, amended. On a clock that has not wrapped, the gate of `messageArrived`,
`publish` and `publishTemperatureHumidity` tests `elapsed < 1000` strictly:
when the elapsed time since `lastMessagePublish` is exactly 1000 ms (or more)
the operation is due and no sleep is issued; when it is below 1000 ms the gate
sleeps once, for `1200 - elapsed`, so that the operation proceeds only once at
least 1200 ms in total have passed since `lastMessagePublish`. -/
theorem throttle_boundary (s : Device) (payload : List Byte) (a : ArrivalEnv)
    (e : PressureEnv) (t : TempHumEnv)
    (hle : s.lastMessagePublish ≤ s.clock) (hclk : s.clock < U64) :
    (1000 ≤ s.clock - s.lastMessagePublish →
      throttleGate s a.overshoot = s ∧
      sleeps s (messageArrived s payload a) = [] ∧
      sleeps s (publish s e).1 = [] ∧
      sleeps s (publishTemperatureHumidity s t).1 = []) ∧
    (s.clock - s.lastMessagePublish < 1000 →
      s.lastMessagePublish + 1200 ≤ (throttleGate s a.overshoot).clock ∧
      sleeps s (messageArrived s payload a)
        = [Action.sleepFor (1200 - (s.clock - s.lastMessagePublish))] ∧
      sleeps s (publish s e).1
        = [Action.sleepFor (1200 - (s.clock - s.lastMessagePublish))] ∧
      sleeps s (publishTemperatureHumidity s t).1
        = [Action.sleepFor (1200 - (s.clock - s.lastMessagePublish))]) := by
  obtain ⟨p1, h1, f1⟩ := messageArrived_trace s payload a
  obtain ⟨p2, h2, f2⟩ := publish_trace s e
  obtain ⟨p3, h3, f3⟩ := publishTemperatureHumidity_trace s t
  have k1 := sleeps_of_gate s _ _ p1 h1 f1 hle hclk
  have k2 := sleeps_of_gate s _ _ p2 h2 f2 hle hclk
  have k3 := sleeps_of_gate s _ _ p3 h3 f3 hle hclk
  constructor
  · intro h
    have hn : ¬ (s.clock - s.lastMessagePublish < 1000) := by omega
    rw [if_neg hn] at k1 k2 k3
    refine ⟨?_, k1, k2, k3⟩
    rw [throttleGate_of_le s _ hle hclk, if_neg hn]
  · intro h
    rw [if_pos h] at k1 k2 k3
    exact ⟨(throttleGate_clock_ge s _ hle hclk).2.2 h, k1, k2, k3⟩

/-- C5, amended, at elapsed times of exactly 1000 ms and of 999 ms. -/
theorem throttle_boundary_witness :
    (throttleGate (Device.running 3500 2500) 0 =
      (Device.running 3500 2500)) ∧
    (sleeps (Device.running 3499 2500)
      (publish (Device.running 3499 2500)
        ⟨0, CFloat.finite false 8300593 8192, 0, 40, 0, 0⟩).1
      = [Action.sleepFor (1200 - (3499 - 2500))]) :=
  ⟨((throttle_boundary (Device.running 3500 2500) (ascii "ON") ⟨0, 0⟩
      ⟨0, CFloat.finite false 8300593 8192, 0, 40, 0, 0⟩
      ⟨0, CFloat.finite false 43 2, CFloat.finite false 12661555 262144, 0, 40, 0, 0⟩
      (by decide) (by decide)).1 (by decide)).1,
   ((throttle_boundary (Device.running 3499 2500) (ascii "ON") ⟨0, 0⟩
      ⟨0, CFloat.finite false 8300593 8192, 0, 40, 0, 0⟩
      ⟨0, CFloat.finite false 43 2, CFloat.finite false 12661555 262144, 0, 40, 0, 0⟩
      (by decide) (by decide)).2 (by decide)).2.2.1⟩

/-! ## Formatting: `"%.2f"`, `snprintf`, `strlen` -/

/-- A value strictly between `j + 1/2` and `j + 3/2` rounds to `j + 1`. -/
theorem roundHalfEven_near (num den j : Nat) (hden : 0 < den)
    (h1 : (2 * j + 1) * den < 2 * num) (h2 : 2 * num < (2 * j + 3) * den) :
    roundHalfEven num den = j + 1 := by
  have hq_lo : j ≤ num / den := (Nat.le_div_iff_mul_le hden).2 (by nlinarith)
  have hq_hi : num / den < j + 2 := (Nat.div_lt_iff_lt_mul hden).2 (by nlinarith)
  have hdm := Nat.div_add_mod num den
  have hr := Nat.mod_lt num hden
  have hq : num / den = j ∨ num / den = j + 1 := by omega
  unfold roundHalfEven
  rcases hq with hq | hq
  · rw [hq] at hdm
    have : den < 2 * (num % den) := by nlinarith
    simp only [hq, this, true_or, if_true]
  · rw [hq] at hdm
    have h3 : 2 * (num % den) < den := by nlinarith
    have h4 : ¬ (den < 2 * (num % den)) := by omega
    have h5 : ¬ (2 * (num % den) = den) := by omega
    simp only [hq, h4, h5, false_and, or_false, if_false]

/-- The rendering of a non-negative value whose hundredths round to `j + 1`. -/
theorem fmt2f_near (num den j : Nat) (hden : 0 < den)
    (h1 : (2 * j + 1) * den < 200 * num) (h2 : 200 * num < (2 * j + 3) * den) :
    fmt2f (CFloat.finite false num den) =
      (Nat.repr ((j + 1) / 100)).toList ++ ['.'] ++ twoDigits ((j + 1) % 100) := by
  have h := roundHalfEven_near (num * 100) den j hden (by omega) (by omega)
  simp only [fmt2f, h, signChars]
  rfl

theorem digitChar_ne_nul (k : Nat) (hk : k < 10) : Nat.digitChar k ≠ nul := by
  interval_cases k <;> decide

theorem toDigitsCore_ne_nul (fuel : Nat) :
    ∀ (n : Nat) (acc : List Char), (∀ c ∈ acc, c ≠ nul) →
      ∀ c ∈ Nat.toDigitsCore 10 fuel n acc, c ≠ nul := by
  induction fuel with
  | zero =>
    intro n acc hacc c hc
    exact hacc c hc
  | succ f ih =>
    intro n acc hacc c hc
    have hcons : ∀ d ∈ Nat.digitChar (n % 10) :: acc, d ≠ nul := by
      intro d hd
      rcases List.mem_cons.1 hd with rfl | hd
      · exact digitChar_ne_nul _ (Nat.mod_lt _ (by decide))
      · exact hacc d hd
    simp only [Nat.toDigitsCore] at hc
    split_ifs at hc
    · exact hcons c hc
    · exact ih _ _ hcons c hc

theorem repr_ne_nul (n : Nat) : ∀ c ∈ (Nat.repr n).toList, c ≠ nul := by
  intro c hc
  exact toDigitsCore_ne_nul _ _ [] (fun _ h => absurd h (List.not_mem_nil _)) c hc

theorem signChars_ne_nul (neg : Bool) : ∀ c ∈ signChars neg, c ≠ nul := by
  intro c hc
  cases neg
  · exact absurd hc (List.not_mem_nil _)
  · have h : c = '-' := by simpa [signChars] using hc
    rw [h]
    decide

/-- The output of `"%.2f"` never contains a NUL. -/
theorem fmt2f_ne_nul (r : CFloat) : ∀ c ∈ fmt2f r, c ≠ nul := by
  intro c hc
  cases r with
  | finite neg num den =>
    simp only [fmt2f, twoDigits, List.mem_append, List.mem_cons, List.mem_singleton,
      List.not_mem_nil, or_false] at hc
    rcases hc with ((hc | hc) | hc) | hc
    · exact signChars_ne_nul neg c hc
    · exact repr_ne_nul _ c hc
    · rw [hc]
      decide
    · rcases hc with hc | hc
      · rw [hc]
        exact digitChar_ne_nul _ (Nat.mod_lt _ (by decide))
      · rw [hc]
        exact digitChar_ne_nul _ (Nat.mod_lt _ (by decide))
  | inf neg =>
    simp only [fmt2f, List.mem_append] at hc
    rcases hc with hc | hc
    · exact signChars_ne_nul neg c hc
    · have h : c = 'i' ∨ c = 'n' ∨ c = 'f' := by simpa using hc
      rcases h with h | h | h <;> rw [h] <;> decide
  | nan neg =>
    simp only [fmt2f, List.mem_append] at hc
    rcases hc with hc | hc
    · exact signChars_ne_nul neg c hc
    · have h : c = 'n' ∨ c = 'a' ∨ c = 'n' := by simpa using hc
      rcases h with h | h | h <;> rw [h] <;> decide

theorem set_terminator (l : List Char) (n : Nat) (h : l.length ≤ n) :
    (l ++ [nul]).set n nul = l ++ [nul] := by
  induction l generalizing n with
  | nil =>
    cases n with
    | zero => rfl
    | succ m => rfl
  | cons a as ih =>
    cases n with
    | zero => simp at h
    | succ m =>
      have hm : as.length ≤ m := by simpa using h
      simp only [List.cons_append, List.set_cons_succ, ih m hm]

theorem strlen_terminated (l : List Char) (h : ∀ c ∈ l, c ≠ nul) :
    strlen (l ++ [nul]) = l.length := by
  unfold strlen
  induction l with
  | nil => simp [List.takeWhile]
  | cons a as ih =>
    have ha : a ≠ nul := h a (List.mem_cons_self _ _)
    have has : ∀ c ∈ as, c ≠ nul := fun c hc => h c (List.mem_cons_of_mem _ hc)
    have e : List.takeWhile (fun c => decide (c ≠ nul)) ((a :: as) ++ [nul]) =
        a :: List.takeWhile (fun c => decide (c ≠ nul)) (as ++ [nul]) := by
      rw [List.cons_append, List.takeWhile_cons]
      simp [ha]
    rw [e, List.length_cons, ih has, List.length_cons]

/-- The buffer filled by `snprintf(buf, n + 1, ...)` followed by
`buf[n] = 0`: its C string is the output cut to `n` characters. -/
theorem buffer_contents (n : Nat) (text : List Char) (h : ∀ c ∈ text, c ≠ nul) :
    strlen ((snprintf (n + 1) text).set n nul) = (text.take n).length ∧
    ((snprintf (n + 1) text).set n nul).take
        (strlen ((snprintf (n + 1) text).set n nul)) = text.take n := by
  have hlen : (text.take n).length ≤ n := by
    rw [List.length_take]
    exact Nat.min_le_left _ _
  have hbuf : (snprintf (n + 1) text).set n nul = text.take n ++ [nul] := by
    unfold snprintf
    rw [Nat.add_sub_cancel]
    exact set_terminator _ _ hlen
  have hno : ∀ c ∈ text.take n, c ≠ nul := fun c hc => h c (List.mem_of_mem_take hc)
  rw [hbuf, strlen_terminated _ hno]
  exact ⟨rfl, List.take_left _ _⟩

/-! ## Reading the rendering back -/

theorem digitValue_digitChar (k : Nat) (hk : k < 10) : digitValue (Nat.digitChar k) = some k := by
  interval_cases k <;> decide

theorem digitChar_ne_zero_char (k : Nat) (hk : k < 10) (h0 : k ≠ 0) : Nat.digitChar k ≠ '0' := by
  interval_cases k <;> first | exact absurd rfl h0 | decide

theorem digitValue_minus : digitValue '-' = none := by decide

theorem readDigitsFrom_append (a b : List Char) :
    ∀ v : Nat, readDigitsFrom v (a ++ b) = (readDigitsFrom v a).bind (fun w => readDigitsFrom w b) := by
  induction a with
  | nil => intro v; rfl
  | cons c cs ih =>
    intro v
    simp only [List.cons_append, readDigitsFrom]
    cases digitValue c with
    | none => rfl
    | some d => exact ih _

/-- The digits written by `Nat.toDigitsCore` read back as the number. -/
theorem core_digits_read_back :
    ∀ (fuel n : Nat) (acc : List Char), n < fuel →
      ∃ ds : List Char, ds ≠ [] ∧
        (∀ v, readDigitsFrom v ds = some (v * 10 ^ ds.length + n)) ∧
        (n ≠ 0 → ds.head? ≠ some '0') ∧ (n < 10 → ds.length = 1) ∧
        Nat.toDigitsCore 10 fuel n acc = ds ++ acc := by
  intro fuel
  induction fuel with
  | zero => intro n acc h; omega
  | succ f ih =>
    intro n acc hn
    have hd := digitValue_digitChar (n % 10) (Nat.mod_lt _ (by decide))
    simp only [Nat.toDigitsCore]
    by_cases hq : n / 10 = 0
    · rw [if_pos hq]
      have hlt : n < 10 := by omega
      refine ⟨[Nat.digitChar (n % 10)], by simp, ?_, ?_, fun _ => rfl, rfl⟩
      · intro v
        simp only [readDigitsFrom, hd, List.length_singleton]
        congr 1
        omega
      · intro h0
        have hne := digitChar_ne_zero_char (n % 10) (Nat.mod_lt _ (by decide)) (by omega)
        simpa using hne
    · rw [if_neg hq]
      have hlow : n / 10 < f := by omega
      obtain ⟨ds, hne, hval, hhead, _, hds⟩ := ih _ (Nat.digitChar (n % 10) :: acc) hlow
      have hsnoc : ds ++ [Nat.digitChar (n % 10)] ≠ [] := by simp
      refine ⟨_, hsnoc, ?_, ?_, ?_, ?_⟩
      · intro v
        rw [readDigitsFrom_append, hval]
        simp only [Option.bind, readDigitsFrom, hd, List.length_append, List.length_singleton]
        congr 1
        rw [pow_succ]
        have := Nat.div_add_mod n 10
        nlinarith
      · intro _
        have := hhead hq
        cases ds with
        | nil => exact absurd rfl hne
        | cons c cs => simpa using this
      · intro hlt
        omega
      · rw [hds]; simp

theorem repr_spec (n : Nat) :
    (Nat.repr n).toList ≠ [] ∧ readDigitsFrom 0 (Nat.repr n).toList = some n ∧
    ((Nat.repr n).toList.head? = some '0' → (Nat.repr n).toList.length = 1) := by
  obtain ⟨ds, hne, hval, hhead, hone, hds⟩ := core_digits_read_back (n + 1) n [] (by omega)
  have hrepr : (Nat.repr n).toList = ds := by
    show Nat.toDigitsCore 10 (n + 1) n [] = ds
    rw [hds, List.append_nil]
  rw [hrepr]
  refine ⟨hne, ?_, ?_⟩
  · rw [hval]; simp
  · intro h
    by_cases h0 : n = 0
    · exact hone (by omega)
    · exact absurd h (hhead h0)

theorem readNatural_repr (n : Nat) : readNatural (Nat.repr n).toList = some n := by
  obtain ⟨hne, hval, hlead⟩ := repr_spec n
  unfold readNatural
  rw [if_neg hne, if_neg (fun h => h.2 (hlead h.1)), hval]

theorem repr_head_ne_minus (n : Nat) (rest : List Char) :
    ((Nat.repr n).toList ++ rest).head? ≠ some '-' := by
  obtain ⟨hne, hval, _⟩ := repr_spec n
  cases hds : (Nat.repr n).toList with
  | nil => exact absurd hds hne
  | cons c cs =>
    rw [hds] at hval
    intro h
    have hc : c = '-' := by simpa using h
    rw [hc] at hval
    simp [readDigitsFrom, digitValue_minus] at hval


/-- The rounding used by `fmt2f` yields a nearest integer. -/
theorem roundHalfEven_nearest (num den : Nat) (hden : 0 < den) :
    2 * roundHalfEven num den * den ≤ 2 * num + den ∧
    2 * num ≤ 2 * roundHalfEven num den * den + den := by
  have hdm := Nat.div_add_mod num den
  have hr := Nat.mod_lt num hden
  unfold roundHalfEven
  simp only []
  split
  · rename_i h
    have h2 : den ≤ 2 * (num % den) := by
      rcases h with h | h
      · omega
      · omega
    have e : 2 * (num / den + 1) * den = 2 * (den * (num / den)) + 2 * den := by ring
    rw [e]
    omega
  · rename_i h
    have h2 : 2 * (num % den) ≤ den := by
      by_contra hc
      exact h (Or.inl (by omega))
    have e : 2 * (num / den) * den = 2 * (den * (num / den)) := by ring
    rw [e]
    omega

theorem readFixed2_of_body (text R : List Char) (a b : Char) (i x y : Nat) (negv : Bool)
    (hneg : decide (text.head? = some '-') = negv)
    (hbody : (if negv = true then text.drop 1 else text) = R ++ ['.', a, b])
    (hR : readNatural R = some i) (ha : digitValue a = some x) (hb : digitValue b = some y) :
    readFixed2 text = some (negv, 100 * i + 10 * x + y) := by
  have hlen : (R ++ ['.', a, b]).length - 3 = R.length := by simp
  unfold readFixed2
  simp only [hneg, hbody, hlen, List.take_left, List.drop_left, hR, ha, hb, if_true]

/-- The rendering of a finite reading reads back as its sign bit and its
rounded hundredths. -/
theorem readFixed2_fmt2f (neg : Bool) (num den : Nat) :
    readFixed2 (fmt2f (CFloat.finite neg num den)) =
      some (neg, roundHalfEven (num * 100) den) := by
  have hm : roundHalfEven (num * 100) den % 100 < 100 := Nat.mod_lt _ (by decide)
  have ha := digitValue_digitChar (roundHalfEven (num * 100) den % 100 / 10 % 10)
    (Nat.mod_lt _ (by decide))
  have hb := digitValue_digitChar (roundHalfEven (num * 100) den % 100 % 10)
    (Nat.mod_lt _ (by decide))
  have hR := readNatural_repr (roundHalfEven (num * 100) den / 100)
  have hval : 100 * (roundHalfEven (num * 100) den / 100)
      + 10 * (roundHalfEven (num * 100) den % 100 / 10 % 10)
      + roundHalfEven (num * 100) den % 100 % 10 = roundHalfEven (num * 100) den := by
    omega
  have key := fun (hneg) (hbody) =>
    readFixed2_of_body (fmt2f (CFloat.finite neg num den))
      (Nat.repr (roundHalfEven (num * 100) den / 100)).toList _ _ _ _ _ neg hneg hbody hR ha hb
  rw [hval] at key
  apply key
  · cases neg
    · have := repr_head_ne_minus (roundHalfEven (num * 100) den / 100)
        (['.'] ++ twoDigits (roundHalfEven (num * 100) den % 100))
      simpa [fmt2f, signChars, List.append_assoc] using this
    · simp [fmt2f, signChars]
  · cases neg
    · simp [fmt2f, signChars, twoDigits]
    · simp [fmt2f, signChars, twoDigits]

/-- The function `fmt2f` produces the two-decimal rendering of every reading. -/
theorem fmt2f_rendering (r : CFloat) (hv : r.valid) : TwoDecimalRendering r (fmt2f r) := by
  cases r with
  | finite neg num den =>
    have hden : 0 < den := hv
    obtain ⟨h1, h2⟩ := roundHalfEven_nearest (num * 100) den hden
    exact ⟨roundHalfEven (num * 100) den, readFixed2_fmt2f neg num den, by omega, by omega⟩
  | inf neg => cases neg <;> rfl
  | nan neg => cases neg <;> rfl

/-- Sample renderings: a negative reading keeps its minus sign, small
magnitudes keep a leading zero, a negative value that rounds to zero and a
negative zero print `-0.00`, and NaN and infinity print with their sign. -/
theorem fmt2f_samples :
    fmt2f (CFloat.finite true 21 4) = "-5.25".toList ∧
    fmt2f (CFloat.finite false 8300593 8192) = "1013.26".toList ∧
    fmt2f (CFloat.finite false 1 20) = "0.05".toList ∧
    fmt2f (CFloat.finite true 1 1000) = "-0.00".toList ∧
    fmt2f (CFloat.finite true 0 1) = "-0.00".toList ∧
    fmt2f (CFloat.finite false 0 1) = "0.00".toList ∧
    fmt2f (CFloat.nan false) = "nan".toList ∧
    fmt2f (CFloat.nan true) = "-nan".toList ∧
    fmt2f (CFloat.inf false) = "inf".toList ∧
    fmt2f (CFloat.inf true) = "-inf".toList := by
  decide

/-! ## C8: the telemetry payload -/

/-- C8. When the temperature reading rounds to 21.50 (it lies strictly
between 21.495 and 21.505, as 21.5 does) and the humidity reading rounds to
48.30 (strictly between 48.295 and 48.305, as 48.3 and the `float` nearest to
it do), `publishTemperatureHumidity` hands the transport exactly one message:
topic `snayzz/groups/default/json`, payload text
`{"feeds":{"temperature":21.50,"humidity":48.30}}`, payload length the length
of that text. -/
theorem telemetry_payload (s : Device) (e : TempHumEnv) (tn td hn hd : Nat)
    (htd : 0 < td) (hhd : 0 < hd)
    (ht : e.temperature = CFloat.finite false tn td)
    (hh : e.humidity = CFloat.finite false hn hd)
    (ht1 : 4299 * td < 200 * tn) (ht2 : 200 * tn < 4301 * td)
    (hh1 : 9659 * hd < 200 * hn) (hh2 : 200 * hn < 9661 * hd) :
    (publishTemperatureHumidity s e).1.trace =
      (throttleGate s e.overshoot).trace ++
        [Action.transportPublish "snayzz/groups/default/json"
          telemetryExample.toList telemetryExample.length QOS1
          ((throttleGate s e.overshoot).clock + e.prep)
          ((throttleGate s e.overshoot).clock + e.prep + e.transportTime)
          (toInt32 e.status)] := by
  have htxt : feedsText (CFloat.finite false tn td) (CFloat.finite false hn hd)
      = telemetryExample.toList := by
    unfold feedsText
    rw [fmt2f_near tn td 2149 htd (by omega) (by omega),
      fmt2f_near hn hd 4829 hhd (by omega) (by omega)]
    decide
  have hl : strlen ((snprintf 128 telemetryExample.toList).set 127 nul)
      = telemetryExample.length := by decide
  have hb : ((snprintf 128 telemetryExample.toList).set 127 nul).take telemetryExample.length
      = telemetryExample.toList := by decide
  rw [publishTemperatureHumidity_eq, publishTail_trace, transportPublish_trace, ht, hh,
    htxt, hl, hb]
  rfl

/-- C8 at the `float` values of the readings: 21.5 is `43 / 2` and the `float`
nearest to 48.3 is `12661555 / 2 ^ 18`. -/
theorem telemetry_payload_witness :
    (publishTemperatureHumidity (Device.boot 5000)
      ⟨0, CFloat.finite false 43 2, CFloat.finite false 12661555 262144,
        2, 40, 0, 1⟩).1.trace =
      (throttleGate (Device.boot 5000) 0).trace ++
        [Action.transportPublish "snayzz/groups/default/json"
          telemetryExample.toList telemetryExample.length QOS1
          ((throttleGate (Device.boot 5000) 0).clock + 2)
          ((throttleGate (Device.boot 5000) 0).clock + 2 + 40)
          (toInt32 0)] :=
  telemetry_payload (Device.boot 5000)
    ⟨0, CFloat.finite false 43 2, CFloat.finite false 12661555 262144, 2, 40, 0, 1⟩
    43 2 12661555 262144 (by decide) (by decide) rfl rfl
    (by decide) (by decide) (by decide) (by decide)

/-! ## C9: the pressure payload -/

/-- C9. When the pressure reading rounds to 1013.26 (it lies strictly between
1013.255 and 1013.265, as 1013.256 and the `float` nearest to it do),
`publish` hands the transport the payload text `1013.26` of length 7 on topic
`snayzz/feeds/pressure`.  And for every reading, the payload is the first 15
characters of the text `fmt2f` renders, the payload length is the length of
that cut and is at most 15, and that text is the two-decimal rendering of the
reading: for a finite reading it reads back as the reading's sign and a
number of hundredths nearest to its magnitude; for an infinity or a NaN it is
`inf` or `nan`, with a minus sign when the sign bit is set. -/
theorem pressure_payload (s : Device) (e : PressureEnv) (pn pd : Nat) :
    (0 < pd → e.pressure = CFloat.finite false pn pd →
      202651 * pd < 200 * pn → 200 * pn < 202653 * pd →
      (publish s e).1.trace =
        (throttleGate s e.overshoot).trace ++
          [Action.transportPublish "snayzz/feeds/pressure" "1013.26".toList 7 QOS1
            ((throttleGate s e.overshoot).clock + e.prep)
            ((throttleGate s e.overshoot).clock + e.prep + e.transportTime)
            (toInt32 e.status)]) ∧
    (publish s e).1.trace =
      (throttleGate s e.overshoot).trace ++
        [Action.transportPublish "snayzz/feeds/pressure"
          ((fmt2f e.pressure).take 15) ((fmt2f e.pressure).take 15).length QOS1
          ((throttleGate s e.overshoot).clock + e.prep)
          ((throttleGate s e.overshoot).clock + e.prep + e.transportTime)
          (toInt32 e.status)] ∧
    ((fmt2f e.pressure).take 15).length ≤ 15 ∧
    (e.pressure.valid → TwoDecimalRendering e.pressure (fmt2f e.pressure)) := by
  have hbuf := buffer_contents 15 (fmt2f e.pressure) (fmt2f_ne_nul e.pressure)
  have hall : (publish s e).1.trace =
      (throttleGate s e.overshoot).trace ++
        [Action.transportPublish "snayzz/feeds/pressure"
          ((fmt2f e.pressure).take 15) ((fmt2f e.pressure).take 15).length QOS1
          ((throttleGate s e.overshoot).clock + e.prep)
          ((throttleGate s e.overshoot).clock + e.prep + e.transportTime)
          (toInt32 e.status)] := by
    rw [publish_eq, publishTail_trace, transportPublish_trace, hbuf.2, hbuf.1]
    rfl
  refine ⟨?_, hall, ?_, fmt2f_rendering e.pressure⟩
  · intro hpd hp h1 h2
    have htxt : fmt2f e.pressure = "1013.26".toList := by
      rw [hp, fmt2f_near pn pd 101325 hpd (by omega) (by omega)]
      decide
    rw [hall, htxt]
    rfl
  · rw [List.length_take]
    exact Nat.min_le_left _ _

/-- C9 at the `float` nearest to 1013.256, which is `8300593 / 2 ^ 13`, and at
the negative reading `-5.25`, whose rendering reads back as a minus sign and
525 hundredths. -/
theorem pressure_payload_witness :
    ((publish (Device.boot 5000) ⟨0, CFloat.finite false 8300593 8192, 2, 40, 0, 1⟩).1.trace =
      (throttleGate (Device.boot 5000) 0).trace ++
        [Action.transportPublish "snayzz/feeds/pressure" "1013.26".toList 7 QOS1
          ((throttleGate (Device.boot 5000) 0).clock + 2)
          ((throttleGate (Device.boot 5000) 0).clock + 2 + 40)
          (toInt32 0)]) ∧
    TwoDecimalRendering (CFloat.finite true 21 4) (fmt2f (CFloat.finite true 21 4)) ∧
    TwoDecimalRendering (CFloat.nan true) (fmt2f (CFloat.nan true)) :=
  ⟨(pressure_payload (Device.boot 5000)
      ⟨0, CFloat.finite false 8300593 8192, 2, 40, 0, 1⟩ 8300593 8192).1
      (by decide) rfl (by decide) (by decide),
   (pressure_payload (Device.boot 5000)
      ⟨0, CFloat.finite true 21 4, 2, 40, 0, 1⟩ 21 4).2.2.2
      (show 0 < 4 by decide),
   (pressure_payload (Device.boot 5000)
      ⟨0, CFloat.nan true, 2, 40, 0, 1⟩ 0 1).2.2.2 trivial⟩

/-! ## C3: spacing of successful sends -/

theorem successfulSends_append (l1 l2 : List Action) :
    successfulSends (l1 ++ l2) = successfulSends l1 ++ successfulSends l2 := by
  induction l1 with
  | nil => rfl
  | cons a as ih =>
    cases a with
    | transportPublish topic payload len qos tCall tRet status =>
      by_cases h : status = 0
      · simp [successfulSends, h, ih]
      · simp [successfulSends, h, ih]
    | _ => simp [successfulSends, ih]

theorem throttleGate_clock_mono (s : Device) (o : Nat) : s.clock ≤ (throttleGate s o).clock := by
  rw [throttleGate_eq]
  split
  · simp only [Device.sleep_for]
    omega
  · exact Nat.le_refl _

theorem throttleGate_sends (s : Device) (o : Nat) :
    successfulSends (throttleGate s o).trace = successfulSends s.trace := by
  rw [throttleGate_eq]
  split
  · simp only [Device.sleep_for, successfulSends_append]
    simp [successfulSends]
  · rfl

/-- What `messageArrived` does to clock, timestamp and sends. -/
theorem messageArrived_summary (s : Device) (payload : List Byte) (e : ArrivalEnv) :
    successfulSends (messageArrived s payload e).trace = successfulSends s.trace ∧
    (((messageArrived s payload e).clock = (throttleGate s e.overshoot).clock ∧
        (messageArrived s payload e).lastMessagePublish = s.lastMessagePublish) ∨
      ((messageArrived s payload e).clock = (throttleGate s e.overshoot).clock + e.work ∧
        (messageArrived s payload e).lastMessagePublish
          = ((throttleGate s e.overshoot).clock + e.work) % U64)) := by
  have hs := throttleGate_sends s e.overshoot
  have hl := throttleGate_last s e.overshoot
  simp only [messageArrived]
  split_ifs
  · exact ⟨by simp [Device.stamp, Device.writeLed, Device.elapse, successfulSends_append,
      successfulSends, hs], Or.inr ⟨rfl, rfl⟩⟩
  · exact ⟨by simp [Device.stamp, Device.writeLed, Device.elapse, successfulSends_append,
      successfulSends, hs], Or.inr ⟨rfl, rfl⟩⟩
  · exact ⟨by simp [Device.system_reset, successfulSends_append, successfulSends, hs],
      Or.inl ⟨rfl, hl⟩⟩
  · exact ⟨by simp [Device.stamp, Device.elapse, hs], Or.inr ⟨rfl, rfl⟩⟩

theorem throttleInv_arrival (s : Device) (payload : List Byte) (e : ArrivalEnv)
    (h : ThrottleInv s) (hclk : (messageArrived s payload e).clock < U64) :
    ThrottleInv (messageArrived s payload e) := by
  obtain ⟨hle, hret, hpw⟩ := h
  obtain ⟨hsends, hcase⟩ := messageArrived_summary s payload e
  have hmono := throttleGate_clock_mono s e.overshoot
  unfold ThrottleInv
  rw [hsends]
  rcases hcase with ⟨hc, hl⟩ | ⟨hc, hl⟩
  · rw [hc, hl]
    exact ⟨by omega, hret, hpw⟩
  · rw [hc] at hclk
    rw [hl, Nat.mod_eq_of_lt hclk, hc]
    refine ⟨Nat.le_refl _, ?_, hpw⟩
    intro p hp
    have := hret p hp
    omega

theorem publishCore_trace (g : Device) (topic : String) (buf : List Char)
    (prep tt post : Nat) (status : Int) :
    (publishTail (transportPublish (g.elapse prep) topic buf tt status) post).1.trace =
      g.trace ++
        [Action.transportPublish topic (buf.take (strlen buf)) (strlen buf) QOS1
          (g.clock + prep) (g.clock + prep + tt) (toInt32 status)] := by
  rw [publishTail_trace, transportPublish_trace]
  rfl

theorem publishCore_ok (g : Device) (topic : String) (buf : List Char)
    (prep tt post : Nat) (status : Int) (hrc : toInt32 status = 0) :
    (publishTail (transportPublish (g.elapse prep) topic buf tt status) post).1.clock
      = g.clock + prep + tt + post ∧
    (publishTail (transportPublish (g.elapse prep) topic buf tt status) post).1.lastMessagePublish
      = (g.clock + prep + tt + post) % U64 := by
  rw [publishTail_ok _ _ (by rw [transportPublish_rc]; exact hrc)]
  exact ⟨rfl, rfl⟩

theorem publishCore_fail (g : Device) (topic : String) (buf : List Char)
    (prep tt post : Nat) (status : Int) (hrc : toInt32 status ≠ 0) :
    (publishTail (transportPublish (g.elapse prep) topic buf tt status) post).1.clock
      = g.clock + prep + tt ∧
    (publishTail (transportPublish (g.elapse prep) topic buf tt status) post).1.lastMessagePublish
      = g.lastMessagePublish := by
  rw [publishTail_fail _ _ (by rw [transportPublish_rc]; exact hrc)]
  exact ⟨rfl, rfl⟩

/-- The part of a publishing task after the gate keeps the invariant, provided
the gate left at least 1000 ms between the timestamp and the clock. -/
theorem throttleInv_publishCore (s g : Device) (topic : String) (buf : List Char)
    (prep tt post : Nat) (status : Int)
    (h : ThrottleInv s)
    (hg1 : s.lastMessagePublish + 1000 ≤ g.clock)
    (hg2 : g.lastMessagePublish = s.lastMessagePublish)
    (hg3 : successfulSends g.trace = successfulSends s.trace)
    (hclk : (publishTail (transportPublish (g.elapse prep) topic buf tt status) post).1.clock
      < U64) :
    ThrottleInv (publishTail (transportPublish (g.elapse prep) topic buf tt status) post).1 := by
  obtain ⟨hle, hret, hpw⟩ := h
  have htrace := publishCore_trace g topic buf prep tt post status
  unfold ThrottleInv
  by_cases hrc : toInt32 status = 0
  · obtain ⟨hclock, hlast⟩ := publishCore_ok g topic buf prep tt post status hrc
    rw [hclock] at hclk
    have hsends : successfulSends (g.trace ++
        [Action.transportPublish topic (buf.take (strlen buf)) (strlen buf) QOS1
          (g.clock + prep) (g.clock + prep + tt) (toInt32 status)]) =
        successfulSends s.trace ++ [(g.clock + prep, g.clock + prep + tt)] := by
      rw [successfulSends_append, hg3]
      simp [successfulSends, hrc]
    rw [htrace, hclock, hlast, hsends, Nat.mod_eq_of_lt hclk]
    refine ⟨Nat.le_refl _, ?_, ?_⟩
    · intro p hp
      rcases List.mem_append.1 hp with hp | hp
      · have := hret p hp
        omega
      · have hp2 : p = (g.clock + prep, g.clock + prep + tt) := by simpa using hp
        rw [hp2]
        show g.clock + prep + tt ≤ g.clock + prep + tt + post
        omega
    · rw [List.pairwise_append]
      refine ⟨hpw, List.pairwise_singleton _ _, ?_⟩
      intro a ha b hb
      have hb2 : b = (g.clock + prep, g.clock + prep + tt) := by simpa using hb
      have := hret a ha
      rw [hb2]
      show a.2 + 1000 ≤ g.clock + prep
      omega
  · obtain ⟨hclock, hlast⟩ := publishCore_fail g topic buf prep tt post status hrc
    have hsends : successfulSends (g.trace ++
        [Action.transportPublish topic (buf.take (strlen buf)) (strlen buf) QOS1
          (g.clock + prep) (g.clock + prep + tt) (toInt32 status)]) =
        successfulSends s.trace := by
      rw [successfulSends_append, hg3]
      simp [successfulSends, hrc]
    rw [htrace, hclock, hlast, hsends, hg2]
    exact ⟨by omega, hret, hpw⟩

theorem publishCore_clock_mono (g : Device) (topic : String) (buf : List Char)
    (prep tt post : Nat) (status : Int) :
    g.clock ≤ (publishTail (transportPublish (g.elapse prep) topic buf tt status) post).1.clock := by
  unfold publishTail
  split
  · show g.clock ≤ g.clock + prep + tt
    omega
  · show g.clock ≤ g.clock + prep + tt + post
    omega

theorem step_clock_mono (s : Device) (ev : Event) : s.clock ≤ (step s ev).clock := by
  unfold step
  split
  · exact Nat.le_refl _
  · cases ev with
    | arrival payload e =>
      have hm := throttleGate_clock_mono s e.overshoot
      rcases (messageArrived_summary s payload e).2 with ⟨hc, _⟩ | ⟨hc, _⟩
      · show s.clock ≤ (messageArrived s payload e).clock
        omega
      · show s.clock ≤ (messageArrived s payload e).clock
        omega
    | keepAlive e =>
      show s.clock ≤ (yield s e).clock
      unfold yield
      simp only []
      split
      · show s.clock ≤ s.clock + e.duration
        omega
      · show s.clock ≤ s.clock + e.duration
        omega
    | button e =>
      show s.clock ≤ (publish s e).1.clock
      rw [publish_eq]
      exact Nat.le_trans (throttleGate_clock_mono s e.overshoot) (publishCore_clock_mono _ _ _ _ _ _ _)
    | telemetry e =>
      show s.clock ≤ (publishTemperatureHumidity s e).1.clock
      rw [publishTemperatureHumidity_eq]
      exact Nat.le_trans (throttleGate_clock_mono s e.overshoot) (publishCore_clock_mono _ _ _ _ _ _ _)
    | idle ms =>
      show s.clock ≤ s.clock + ms
      omega

theorem throttleInv_yield (s : Device) (e : YieldEnv) (h : ThrottleInv s) :
    ThrottleInv (yield s e) := by
  obtain ⟨hle, hret, hpw⟩ := h
  unfold ThrottleInv yield
  simp only []
  split
  · refine ⟨?_, ?_, ?_⟩
    · show s.lastMessagePublish ≤ s.clock + e.duration
      omega
    · simpa [Device.system_reset, Device.emit, Device.elapse, successfulSends_append,
        successfulSends] using hret
    · simpa [Device.system_reset, Device.emit, Device.elapse, successfulSends_append,
        successfulSends] using hpw
  · refine ⟨?_, ?_, ?_⟩
    · show s.lastMessagePublish ≤ s.clock + e.duration
      omega
    · simpa [Device.emit, Device.elapse, successfulSends_append, successfulSends] using hret
    · simpa [Device.emit, Device.elapse, successfulSends_append, successfulSends] using hpw

theorem throttleInv_step (s : Device) (ev : Event) (h : ThrottleInv s)
    (hclk : (step s ev).clock < U64) : ThrottleInv (step s ev) := by
  have hs : s.clock < U64 := Nat.lt_of_le_of_lt (step_clock_mono s ev) hclk
  unfold step at hclk ⊢
  split
  · exact h
  · rename_i hh
    rw [if_neg hh] at hclk
    cases ev with
    | arrival payload e => exact throttleInv_arrival s payload e h hclk
    | keepAlive e => exact throttleInv_yield s e h
    | button e =>
      have hclk2 : (publish s e).1.clock < U64 := hclk
      show ThrottleInv (publish s e).1
      rw [publish_eq] at hclk2 ⊢
      exact throttleInv_publishCore s _ _ _ _ _ _ _ h
        (throttleGate_clock_ge s e.overshoot h.1 hs).2.1
        (throttleGate_last s e.overshoot) (throttleGate_sends s e.overshoot) hclk2
    | telemetry e =>
      have hclk2 : (publishTemperatureHumidity s e).1.clock < U64 := hclk
      show ThrottleInv (publishTemperatureHumidity s e).1
      rw [publishTemperatureHumidity_eq] at hclk2 ⊢
      exact throttleInv_publishCore s _ _ _ _ _ _ _ h
        (throttleGate_clock_ge s e.overshoot h.1 hs).2.1
        (throttleGate_last s e.overshoot) (throttleGate_sends s e.overshoot) hclk2
    | idle ms =>
      obtain ⟨hle, hret, hpw⟩ := h
      exact ⟨by show s.lastMessagePublish ≤ s.clock + ms; omega, hret, hpw⟩

theorem run_clock_mono (evs : List Event) : ∀ s : Device, s.clock ≤ (run s evs).clock := by
  induction evs with
  | nil => intro s; exact Nat.le_refl _
  | cons ev rest ih =>
    intro s
    exact Nat.le_trans (step_clock_mono s ev) (ih (step s ev))

theorem throttleInv_run (evs : List Event) :
    ∀ s : Device, ThrottleInv s → (run s evs).clock < U64 → ThrottleInv (run s evs) := by
  induction evs with
  | nil => intro s h _; exact h
  | cons ev rest ih =>
    intro s h hclk
    have hstep : (step s ev).clock < U64 :=
      Nat.lt_of_le_of_lt (run_clock_mono rest (step s ev)) hclk
    exact ih (step s ev) (throttleInv_step s ev h hstep) hclk

/-- C3. Under a monotonic millisecond clock that does not wrap (a sleep of `d`
ms advances it by `d` plus a non-negative overshoot), in every run of the
dispatch loop that starts before any send, any two successful transport
publishes made by `publish` or `publishTemperatureHumidity` are at least
1000 ms apart: the later one is called no earlier than 1000 ms after the
earlier one returned (this holds for every pair, consecutive ones included).
And whenever a task is entered with less than 1000 ms elapsed since
`lastMessagePublish`, it sleeps and calls the transport no earlier than
1200 ms after `lastMessagePublish`. -/
theorem throttle_spacing (s0 : Device) (evs : List Event)
    (s : Device) (e : PressureEnv) (t : TempHumEnv)
    (h0 : s0.lastMessagePublish ≤ s0.clock) (hfresh : successfulSends s0.trace = [])
    (hclk : (run s0 evs).clock < U64)
    (hle : s.lastMessagePublish ≤ s.clock) (hs : s.clock < U64)
    (hearly : s.clock - s.lastMessagePublish < 1000) :
    List.Pairwise (fun a b : Nat × Nat => a.2 + 1000 ≤ b.1)
      (successfulSends (run s0 evs).trace) ∧
    (∃ payload len tCall tRet,
      (publish s e).1.trace =
        s.trace ++ [Action.sleepFor (1200 - (s.clock - s.lastMessagePublish)),
          Action.transportPublish MQTT_TOPIC_PUBLISH_PRESSURE payload len QOS1 tCall tRet
            (toInt32 e.status)] ∧
      s.lastMessagePublish + 1200 ≤ tCall) ∧
    (∃ payload len tCall tRet,
      (publishTemperatureHumidity s t).1.trace =
        s.trace ++ [Action.sleepFor (1200 - (s.clock - s.lastMessagePublish)),
          Action.transportPublish MQTT_GROUPS_PUBLISH payload len QOS1 tCall tRet
            (toInt32 t.status)] ∧
      s.lastMessagePublish + 1200 ≤ tCall) := by
  have hinv0 : ThrottleInv s0 := by
    refine ⟨h0, ?_, ?_⟩
    · rw [hfresh]
      intro p hp
      exact absurd hp (List.not_mem_nil _)
    · rw [hfresh]
      exact List.Pairwise.nil
  have hgate : ∀ o : Nat, (throttleGate s o).trace =
      s.trace ++ [Action.sleepFor (1200 - (s.clock - s.lastMessagePublish))] := by
    intro o
    rw [throttleGate_of_le s o hle hs, if_pos hearly]
    rfl
  refine ⟨(throttleInv_run evs s0 hinv0 hclk).2.2, ?_, ?_⟩
  · refine ⟨((snprintf 16 (fmt2f e.pressure)).set 15 nul).take
        (strlen ((snprintf 16 (fmt2f e.pressure)).set 15 nul)),
      strlen ((snprintf 16 (fmt2f e.pressure)).set 15 nul),
      (throttleGate s e.overshoot).clock + e.prep,
      (throttleGate s e.overshoot).clock + e.prep + e.transportTime, ?_, ?_⟩
    · rw [publish_eq, publishCore_trace, hgate, List.append_assoc]
      rfl
    · have := (throttleGate_clock_ge s e.overshoot hle hs).2.2 hearly
      omega
  · refine ⟨((snprintf 128 (feedsText t.temperature t.humidity)).set 127 nul).take
        (strlen ((snprintf 128 (feedsText t.temperature t.humidity)).set 127 nul)),
      strlen ((snprintf 128 (feedsText t.temperature t.humidity)).set 127 nul),
      (throttleGate s t.overshoot).clock + t.prep,
      (throttleGate s t.overshoot).clock + t.prep + t.transportTime, ?_, ?_⟩
    · rw [publishTemperatureHumidity_eq, publishCore_trace, hgate, List.append_assoc]
      rfl
    · have := (throttleGate_clock_ge s t.overshoot hle hs).2.2 hearly
      omega

/-- The successful sends of the sample run, as (call, return) clock pairs. -/
theorem sampleRun_sends :
    successfulSends (run (Device.boot 0) sampleRun).trace =
      [(1202, 1242), (2450, 2490), (4936, 4976)] := by
  decide

/-- C3 on the sample run from boot, and on a task entered 999 ms after the
timestamp. -/
theorem throttle_spacing_witness :
    List.Pairwise (fun a b : Nat × Nat => a.2 + 1000 ≤ b.1)
      (successfulSends (run (Device.boot 0) sampleRun).trace) :=
  (throttle_spacing (Device.boot 0) sampleRun (Device.running 3499 2500)
    ⟨0, CFloat.finite false 8300593 8192, 2, 40, 0, 1⟩
    ⟨0, CFloat.finite false 43 2, CFloat.finite false 12661555 262144, 2, 40, 0, 1⟩
    (by decide) (by decide) (by decide) (by decide) (by decide) (by decide)).1

end MqttRelay
